import Mathlib

/-!
Verification development for the MS/TP BACnet client session layer
(`provider-source/helper/mstp_services.py`).

The Python module is shallowly embedded: every function under scrutiny is
translated into an executable Lean definition over an explicit model of the
Python values it manipulates.  Global mutable state (the object-type
definition map, the device cache) is made an explicit argument/result; the
asynchronous protocol engine is modelled as an environment function mapping
each issued request to the reply the engine would deliver for it.  Python
exceptions are modelled with `Except`: a `.error` result corresponds to a
raised exception (or, where the source catches it, to the structured error
dictionary the source returns).
-/

namespace MstpServices

/-- Model of a dynamically-typed Python value as handled by the module:
`None`, `bool`, `int`, `float` (modelled as a rational; non-finite floats
are outside the model, no code path under verification produces them) and
`str`. -/
inductive PyVal where
  | none
  | bool (b : Bool)
  | int (n : Int)
  | float (q : ℚ)
  | str (s : String)
deriving Repr, DecidableEq

/-- The whitespace set of Python `str.strip()` (ASCII part). -/
def isPySpace (c : Char) : Bool :=
  c = ' ' || c = '\t' || c = '\n' || c = '\r' || c = '\x0b' || c = '\x0c'

/-- Python `str.strip()` on a character list. -/
def trimChars (cs : List Char) : List Char :=
  ((cs.dropWhile isPySpace).reverse.dropWhile isPySpace).reverse

/-- Python `str.strip()`. -/
def trimStr (s : String) : String :=
  String.mk (trimChars s.data)

/-- Python `str.lower()` (ASCII). -/
def lowerStr (s : String) : String :=
  String.mk (s.data.map Char.toLower)

/-- Python `str.upper()` (ASCII). -/
def upperStr (s : String) : String :=
  String.mk (s.data.map Char.toUpper)

/-- Python `str.split(sep)` for a one-character separator. -/
def splitOnChar (c : Char) : List Char → List (List Char)
  | [] => [[]]
  | x :: rest =>
    let r := splitOnChar c rest
    if x = c then [] :: r
    else
      match r with
      | h :: t => (x :: h) :: t
      | [] => [[x]]

/-- Digit-run recogniser for Python numeric literals: after the first digit,
digits may be separated by single underscores (`int("1_0") = 10`), with no
trailing or doubled underscore. -/
def digitsRest : List Char → Bool
  | [] => true
  | c :: rest =>
    if c.isDigit then digitsRest rest
    else if c = '_' then
      match rest with
      | [] => false
      | d :: rest2 => d.isDigit && digitsRest rest2
    else false

/-- A valid Python digit run: nonempty, starts with a digit, underscores only
between digits. -/
def validDigits (cs : List Char) : Bool :=
  match cs with
  | [] => false
  | c :: rest => c.isDigit && digitsRest rest

/-- Numeric value of a digit run, ignoring underscores. -/
def digitsVal (cs : List Char) : Nat :=
  cs.foldl (fun a c => if c = '_' then a else a * 10 + (c.toNat - 48)) 0

/-- Split an optional leading sign off a character list, returning the sign
as `1` or `-1`. -/
def takeSign : List Char → Int × List Char
  | '-' :: rest => (-1, rest)
  | '+' :: rest => (1, rest)
  | cs => (1, cs)

/-- Python `int(s)` on a string: strip surrounding whitespace, optional
sign, then a digit run.  `Option.none` models the `ValueError` raised on any
other input. -/
def pyInt (s : String) : Option Int :=
  let (sgn, cs) := takeSign (trimChars s.data)
  if validDigits cs then some (sgn * (digitsVal cs : Int)) else none

/-- Mantissa of a Python float literal: `digits`, `digits.digits`,
`digits.` or `.digits` (each digit run obeying the underscore rule).
Returns the digits' value and the number of fractional digits. -/
def parseMantissa (cs : List Char) : Option (Nat × Nat) :=
  match splitOnChar '.' cs with
  | [a] => if validDigits a then some (digitsVal a, 0) else Option.none
  | [a, b] =>
    let aOK := a.isEmpty || validDigits a
    let bOK := b.isEmpty || validDigits b
    if aOK && bOK && !(a.isEmpty && b.isEmpty) then
      let fracDigits := (b.filter (fun c => c ≠ '_')).length
      some (digitsVal a * 10 ^ fracDigits + digitsVal b, fracDigits)
    else Option.none
  | _ => Option.none

/-- The rational value of a parsed decimal `sgn · n · 10^(-fracLen) · 10^e`,
assembled with integer arithmetic only. -/
def decToRat (sgn : Int) (n fracLen : Nat) (e : Int) : ℚ :=
  if 0 ≤ e then mkRat (sgn * n * 10 ^ e.toNat) (10 ^ fracLen)
  else mkRat (sgn * n) (10 ^ fracLen * 10 ^ (-e).toNat)

/-- Python `float(s)` on a string: strip, optional sign, mantissa with an
optional `e`/`E` exponent.  The value is exact (Python's binary rounding is
not modelled) and the non-finite literals (`inf`, `nan`, …) are outside the
model; no claim exercises either. -/
def pyFloat (s : String) : Option ℚ :=
  let (sgn, cs) := takeSign (trimChars s.data)
  let low := cs.map Char.toLower
  match splitOnChar 'e' low with
  | [m] =>
    match parseMantissa m with
    | some (n, fl) => some (decToRat sgn n fl 0)
    | Option.none => Option.none
  | [m, ex] =>
    match parseMantissa m with
    | some (n, fl) =>
      let (esgn, ecs) := takeSign ex
      if validDigits ecs then some (decToRat sgn n fl (esgn * (digitsVal ecs : Int)))
      else Option.none
    | Option.none => Option.none
  | _ => Option.none

/-- Decimal rendering of a rational standing in for Python float `repr`;
only the integral case is ever inspected by the code under verification. -/
def ratRepr (q : ℚ) : String :=
  if q.den = 1 then toString q.num ++ ".0"
  else toString q.num ++ "/" ++ toString q.den

/-- Python `str(value)`. -/
def pyStr : PyVal → String
  | .none => "None"
  | .bool b => if b then "True" else "False"
  | .int n => toString n
  | .float q => ratRepr q
  | .str s => s

/-- Python `round(x)` (one argument) on a float: round-half-to-even,
computed on the reduced numerator/denominator (`f` is the floor, `r/den`
the fractional part). -/
def roundHalfEven (q : ℚ) : Int :=
  let f := Int.fdiv q.num (q.den : Int)
  let r := q.num - f * (q.den : Int)
  if 2 * r < (q.den : Int) then f
  else if (q.den : Int) < 2 * r then f + 1
  else if f % 2 = 0 then f else f + 1

/-- `_TRUE_WORDS` from the source. -/
def trueWords : List String :=
  ["1", "true", "on", "active", "enabled", "enable", "set"]

/-- `_FALSE_WORDS` from the source. -/
def falseWords : List String :=
  ["0", "false", "off", "inactive", "disabled", "disable", "reset", "clear"]

/-- `_to_boolish(value)`: `bool` passes through; `int`/`float` use numeric
truthiness; otherwise the stripped, lower-cased string form is checked
against the word lists, then `int(s)` truthiness, then non-emptiness. -/
def toBoolish (value : PyVal) : Bool :=
  match value with
  | .bool b => b
  | .int n => n ≠ 0
  | .float q => q ≠ 0
  | v =>
    let s := lowerStr (trimStr (pyStr v))
    if trueWords.contains s then true
    else if falseWords.contains s then false
    else
      match pyInt s with
      | some n => n ≠ 0
      | Option.none => decide (s.data ≠ [])

/-- `_to_int(value)`: `bool` → 0/1; `int`/`float` → `int(round(float(v)))`;
anything else → `int(str(v).strip())`, whose `ValueError` is the `.error`
case. -/
def toInt (value : PyVal) : Except String Int :=
  match value with
  | .bool b => .ok (if b then 1 else 0)
  | .int n => .ok n
  | .float q => .ok (roundHalfEven q)
  | v =>
    match pyInt (trimStr (pyStr v)) with
    | some n => .ok n
    | Option.none => .error "ValueError"

/-- `_to_float(value)`: Python `float(v)`; `bool` counts as 0.0/1.0, `None`
raises `TypeError`, a non-numeric string raises `ValueError`. -/
def toFloat (value : PyVal) : Except String ℚ :=
  match value with
  | .bool b => .ok (if b then 1 else 0)
  | .int n => .ok (n : ℚ)
  | .float q => .ok q
  | .str s =>
    match pyFloat s with
    | some q => .ok q
    | Option.none => .error "ValueError"
  | .none => .error "TypeError"

/-- `_to_str(value)`: empty string for `None`, `str(value)` otherwise. -/
def toStr (value : PyVal) : String :=
  match value with
  | .none => ""
  | v => pyStr v

/-- `(get_bacnet_type(obj_type) or "UNKNOWN").upper()`: the schema lookup is
passed explicitly; Python `or` also replaces an empty string. -/
def btypeOf (defsBT : String → Option String) (objType : String) : String :=
  upperStr
    (match defsBT objType with
     | some s => if s = "" then "UNKNOWN" else s
     | Option.none => "UNKNOWN")

/-- `parse_present_value(obj_type, raw_value)`: dispatch on the schema
semantic type; `.error` models an uncaught conversion exception. -/
def parse_present_value (defsBT : String → Option String) (objType : String)
    (rawValue : PyVal) : Except String PyVal :=
  let btype := btypeOf defsBT objType
  if btype = "BOOLEAN" then .ok (.bool (toBoolish rawValue))
  else if btype = "REAL" then (toFloat rawValue).map PyVal.float
  else if btype = "INTEGER" ∨ btype = "UNSIGNED" ∨ btype = "ENUMERATED" then
    (toInt rawValue).map PyVal.int
  else .ok (.str (toStr rawValue))

/-- Python `value == True` under its numeric coercion (`1 == True`). -/
def pyEqTrue : PyVal → Bool
  | .bool b => b
  | .int n => n = 1
  | .float q => q = 1
  | _ => false

/-- Python `value == False` under its numeric coercion (`0 == False`). -/
def pyEqFalse : PyVal → Bool
  | .bool b => !b
  | .int n => n = 0
  | .float q => q = 0
  | _ => false

/-- `encode_present_value_for_write(obj_type, value)`: identity except that
for `binaryOutput` a true/false value becomes `"active"`/`"inactive"`. -/
def encode_present_value_for_write (objType : String) (value : PyVal) : PyVal :=
  if objType = "binaryOutput" then
    if pyEqTrue value then .str "active"
    else if pyEqFalse value then .str "inactive"
    else value
  else value

/-! ## BACnet datatype model and the confirmed read/write client

`get_datatype(obj_type, prop)` comes from the external protocol stack and is
passed in as an explicit lookup function.  The Python classes it returns are
modelled by `BacDatatype`: the `issubclass` tests of the source become
constructor matches.  The behaviour of the stack's primitive-value
constructors (bacpypes 0.18 `primitivedata`) on the Python values this
module feeds them is captured by `atomicCtor`: every constructor accepts a
value of its own kind, `Boolean`/`Unsigned`/`Integer`/`Real`/`Double`/
`OctetString`/`BitString` raise `TypeError` on a `str` argument,
`Unsigned` raises `ValueError` on a negative int, `Enumerated` subclasses
accept exactly their enumeration labels, and the string-parsing
constructors (`CharacterString`, `Date`, `Time`, `ObjectIdentifier`) accept
the string (their rejection of malformed date/time/identifier strings is
not exercised by any code path under verification and is not modelled). -/

/-- Shape of a primitive (`Atomic`) BACnet datatype class. -/
inductive AtomicTy where
  | boolean
  | unsigned
  | integer
  | real
  | double
  | octetString
  | charString
  | bitString
  | date
  | time
  | objectId
  | enumerated (allowed : List String)
deriving Repr, DecidableEq

/-- Result of `get_datatype`: an `AnyAtomic` (ambiguous) type, a plain
`Atomic` class, an `Array` class with its element type, or some other
constructed type. -/
inductive BacDatatype where
  | anyAtomic
  | atomic (t : AtomicTy)
  | arrayOf (sub : BacDatatype)
  | other
deriving Repr, DecidableEq

/-- A successfully constructed primitive value ready for `cast_in`. -/
inductive Encoded where
  | nullV
  | booleanV (b : Bool)
  | unsignedV (n : Nat)
  | integerV (i : Int)
  | realV (q : ℚ)
  | doubleV (q : ℚ)
  | charV (s : String)
  | bitStringV (s : String)
  | dateV (s : String)
  | timeV (s : String)
  | objectIdV (s : String)
  | enumV (s : String)
deriving Repr, DecidableEq

/-- A bacpypes primitive-class constructor applied to a Python value (see
the section comment for the modelled acceptance table).  The `.error`
payload names the Python exception class. -/
def atomicCtor (t : AtomicTy) (v : PyVal) : Except String Encoded :=
  match t, v with
  | .boolean, .bool b => .ok (.booleanV b)
  | .boolean, _ => .error "TypeError"
  | .unsigned, .int n => if 0 ≤ n then .ok (.unsignedV n.toNat) else .error "ValueError"
  | .unsigned, _ => .error "TypeError"
  | .integer, .int n => .ok (.integerV n)
  | .integer, _ => .error "TypeError"
  | .real, .int n => .ok (.realV (n : ℚ))
  | .real, .float q => .ok (.realV q)
  | .real, _ => .error "TypeError"
  | .double, .int n => .ok (.doubleV (n : ℚ))
  | .double, .float q => .ok (.doubleV q)
  | .double, _ => .error "TypeError"
  | .octetString, _ => .error "TypeError"
  | .charString, .str s => .ok (.charV s)
  | .charString, _ => .error "TypeError"
  | .bitString, _ => .error "TypeError"
  | .date, .str s => .ok (.dateV s)
  | .date, _ => .error "TypeError"
  | .time, .str s => .ok (.timeV s)
  | .time, _ => .error "TypeError"
  | .objectId, .str s => .ok (.objectIdV s)
  | .objectId, _ => .error "TypeError"
  | .enumerated allowed, .str s =>
    if allowed.contains s then .ok (.enumV s) else .error "ValueError"
  | .enumerated _, _ => .error "TypeError"

/-- Python `value.split(":", 1)` followed by two-variable unpacking:
`Option.none` models the `ValueError` raised when there is no colon. -/
def splitTag (value : String) : Option (String × String) :=
  match splitOnChar ':' value.data with
  | [] => Option.none
  | [_] => Option.none
  | c :: rest => some (String.mk c, String.mk (List.intercalate [':'] rest))

/-- The tagged-value table `lut` of `write_property` applied to
`code` and `raw`: an unknown code models the uncaught-in-`lut` `KeyError`
(caught by the surrounding handler), and each caster follows the source
lambda/class for that code. -/
def writeValueLut (code raw : String) : Except String Encoded :=
  if code = "b" then atomicCtor .boolean (.str raw)
  else if code = "u" then
    match pyInt raw with
    | some n => atomicCtor .unsigned (.int n)
    | Option.none => .error "ValueError"
  else if code = "i" then
    match pyInt raw with
    | some n => atomicCtor .integer (.int n)
    | Option.none => .error "ValueError"
  else if code = "r" then
    match pyFloat raw with
    | some q => .ok (.realV q)
    | Option.none => .error "ValueError"
  else if code = "d" then
    match pyFloat raw with
    | some q => .ok (.doubleV q)
    | Option.none => .error "ValueError"
  else if code = "o" then atomicCtor .octetString (.str raw)
  else if code = "c" then atomicCtor .charString (.str raw)
  else if code = "bs" then atomicCtor .bitString (.str raw)
  else if code = "date" then atomicCtor .date (.str raw)
  else if code = "time" then atomicCtor .time (.str raw)
  else if code = "id" then atomicCtor .objectId (.str raw)
  else .error "KeyError"

/-- The parse/cast block of `write_property` (its `try:` body): branch order
follows the source (`"null"`, `AnyAtomic`, `Atomic`, `Array` with index,
best-effort).  The best-effort `dt(value)` call for an `Array` class
without an index or for another constructed type raises `TypeError` on a
string argument. -/
def parseWriteValue (dt : BacDatatype) (value : String) (index : Option Int) :
    Except String Encoded :=
  if value = "null" then .ok .nullV
  else
    match dt with
    | .anyAtomic =>
      match splitTag value with
      | some (code, raw) => writeValueLut code raw
      | Option.none => .error "ValueError"
    | .atomic t =>
      match t with
      | .integer =>
        match pyInt value with
        | some n => atomicCtor .integer (.int n)
        | Option.none => .error "ValueError"
      | .unsigned =>
        match pyInt value with
        | some n => atomicCtor .unsigned (.int n)
        | Option.none => .error "ValueError"
      | .real =>
        match pyFloat value with
        | some q => .ok (.realV q)
        | Option.none => .error "ValueError"
      | .double =>
        match pyFloat value with
        | some q => .ok (.doubleV q)
        | Option.none => .error "ValueError"
      | t2 => atomicCtor t2 (.str value)
    | .arrayOf sub =>
      match index with
      | some i =>
        if i = 0 then atomicCtor .integer (.str value)
        else
          match sub with
          | .atomic t => atomicCtor t (.str value)
          | _ => .error "unsupported array subtype"
      | Option.none => .error "TypeError"
    | .other => .error "TypeError"

/-- Engine outcome for a dispatched confirmed write. -/
inductive WriteReply where
  | ioError (msg : String)
  | notSimpleAck
  | simpleAck
deriving Repr, DecidableEq

/-- Structured result dictionary of `write_property`. -/
inductive WriteResult where
  | error (msg : String)
  | ack
deriving Repr, DecidableEq

/-- Result of a `write_property` call plus whether a request was handed to
the engine (`app.request_io`); `dispatched = false` also means the call
never blocked on `iocb.wait()`. -/
structure WriteOutcome where
  result : WriteResult
  dispatched : Bool
deriving Repr, DecidableEq

/-- `write_property(...)`: resolve the datatype, parse/cast the value
(any exception becomes a `value cast error` result), `cast_in` the
primitive into the `Any` wrapper (always succeeds for a constructed
primitive), dispatch, and interpret the engine's reply.  The function is
total: no exception escapes it. -/
def write_property (dtLookup : String → String → Option BacDatatype)
    (objType prop value : String) (index priority : Option Int)
    (engine : WriteReply) : WriteOutcome :=
  match dtLookup objType prop with
  | Option.none =>
    ⟨.error ("invalid property " ++ prop ++ " for object type " ++ objType), false⟩
  | some dt =>
    match parseWriteValue dt value index with
    | .error e => ⟨.error ("value cast error: " ++ e), false⟩
    | .ok _ =>
      match engine with
      | .ioError m => ⟨.error m, true⟩
      | .notSimpleAck => ⟨.error "no simple ack", true⟩
      | .simpleAck => ⟨.ack, true⟩

/-! ## Wire values and `cast_out` -/

/-- A decoded wire value as produced by `propertyValue.cast_out(...)`:
an unsigned count, an object-identifier tuple, an array of values, or a
plain scalar.  All of these are JSON-serializable in Python (ints, tuples,
strings), so `_json_safe` is the identity on this model. -/
inductive Wire where
  | unsignedW (n : Nat)
  | objIdW (ty : String) (inst : Nat)
  | arrayW (elts : List Wire)
  | scalarW (v : PyVal)
deriving Repr

/-- Whether a wire value decodes as a primitive of the given shape. -/
def wireMatchesAtomic (t : AtomicTy) (w : Wire) : Bool :=
  match t, w with
  | .unsigned, .unsignedW _ => true
  | .objectId, .objIdW _ _ => true
  | .boolean, .scalarW (.bool _) => true
  | .integer, .scalarW (.int _) => true
  | .real, .scalarW (.float _) => true
  | .double, .scalarW (.float _) => true
  | .charString, .scalarW (.str _) => true
  | .enumerated _, .scalarW (.str _) => true
  | _, _ => false

/-- Whether a wire value decodes as the given datatype; `AnyAtomic`
accepts any primitive. -/
def wireMatches (dt : BacDatatype) (w : Wire) : Bool :=
  match dt, w with
  | .atomic t, w2 => wireMatchesAtomic t w2
  | .arrayOf (.atomic t), .arrayW xs => xs.all (wireMatchesAtomic t)
  | .anyAtomic, .arrayW _ => false
  | .anyAtomic, _ => true
  | _, _ => false

/-- `cast_out(target)` on a wire value: returns the decoded value, raising
(`.error`) when the encoded tags do not match the requested class. -/
def castOut (dt : BacDatatype) (w : Wire) : Except String Wire :=
  if wireMatches dt w then .ok w else .error "invalid tag"

/-- `cast_out(Unsigned)` specialised to extract the numeric count. -/
def castOutUnsigned (w : Wire) : Except String Nat :=
  match w with
  | .unsignedW n => .ok n
  | _ => .error "invalid tag"

/-- Engine outcome for a dispatched confirmed read. -/
inductive ReadReply where
  | ioError (msg : String)
  | notAck
  | ack (echoedType echoedProp : String) (echoedIndex : Option Int) (payload : Wire)

/-- The success dictionary returned by `read_property`. -/
structure ReadSuccess where
  address : Int
  objType : String
  objInst : Int
  prop : String
  index : Option Int
  value : Wire

/-- Structured result dictionary of `read_property`. -/
inductive ReadResult where
  | error (msg : String)
  | ok (r : ReadSuccess)

/-- Result of a `read_property` call: the outer `Except` models an uncaught
Python exception (`cast_out` is not wrapped in the source), the inner
`ReadResult` the returned dictionary; `dispatched` records whether a
request reached `app.request_io` (so `false` also means the call never
blocked on `iocb.wait()`). -/
structure ReadOutcome where
  result : Except String ReadResult
  dispatched : Bool

/-- `read_property(...)`: fail fast when the schema has no datatype for the
object/property pair, otherwise dispatch, block, and decode the reply with
the array-index special case (index 0 is an `Unsigned` count, other indices
use the array's element type), re-resolving the datatype from the
acknowledgment's own object identifier. -/
def read_property (dtLookup : String → String → Option BacDatatype)
    (addr : Int) (objType : String) (objInst : Int) (prop : String)
    (index : Option Int) (engine : ReadReply) : ReadOutcome :=
  match dtLookup objType prop with
  | Option.none =>
    ⟨.ok (.error ("invalid property " ++ prop ++ " for object type " ++ objType)), false⟩
  | some _ =>
    match engine with
    | .ioError m => ⟨.ok (.error m), true⟩
    | .notAck => ⟨.ok (.error "no ack"), true⟩
    | .ack ety eprop eidx payload =>
      match dtLookup ety eprop with
      | Option.none => ⟨.ok (.error "unknown datatype"), true⟩
      | some dt2 =>
        let decoded : Except String Wire :=
          match dt2, eidx with
          | .arrayOf sub, some i =>
            if i = 0 then (castOutUnsigned payload).map Wire.unsignedW
            else castOut sub payload
          | dt3, _ => castOut dt3 payload
        match decoded with
        | .error e => ⟨.error e, true⟩
        | .ok val =>
          ⟨.ok (.ok ⟨addr, objType, objInst, prop, index, val⟩), true⟩

/-! ## Object enumeration (`discover`)

The callback chain of `discover` is embedded as an explicit state machine.
The engine is an environment `env : Nat → DiscReply` giving the reply it
delivers for a `ReadProperty(objectList)` request at a given array index;
one `discStep` is one `_send_next` invocation together with the `_on_reply`
callback processing of its reply.  The caller's `done.wait(timeout)` is
modelled by a fuel bound: `fuel` is the number of request/reply rounds the
engine completes before the wall-clock timeout expires. -/

/-- Reply delivered by the engine for one enumeration read. -/
inductive DiscReply where
  | ioError (msg : String)
  | notAck
  | ack (echoedType echoedProp : String) (echoedIndex : Option Nat) (payload : Wire)

/-- Mutable state captured by the `discover` closures: the accumulated
`results`, the pending `index_queue`, the first recorded error, the `done`
event, and (for auditing request traffic) the list of indices actually
sent. -/
structure DiscState where
  results : List Wire
  queue : List Nat
  firstError : Option String
  done : Bool
  issued : List Nat

/-- Initial state of a `discover` run: `index_queue = [0]`. -/
def discInit : DiscState :=
  ⟨[], [0], Option.none, false, []⟩

/-- One `_send_next` invocation: exhausted queue sets `done`; otherwise pop
the head index, issue the read, and process the engine's reply exactly as
`_on_reply` does (any exception inside the callback records the error and
sets `done`). -/
def discStep (dtLookup : String → String → Option BacDatatype)
    (env : Nat → DiscReply) (st : DiscState) : DiscState :=
  match st.queue with
  | [] => { st with done := true }
  | idx :: rest =>
    let st1 : DiscState := { st with queue := rest, issued := st.issued ++ [idx] }
    match env idx with
    | .ioError m => { st1 with firstError := some m, done := true }
    | .notAck => { st1 with firstError := some "not an ack", done := true }
    | .ack ety eprop eidx payload =>
      match dtLookup ety eprop with
      | Option.none =>
        { st1 with firstError := some "unknown datatype for objectList", done := true }
      | some dt =>
        match dt, eidx with
        | .arrayOf sub, some i =>
          if i = 0 then
            match castOutUnsigned payload with
            | .ok n => { st1 with queue := List.range' 1 n }
            | .error e => { st1 with firstError := some e, done := true }
          else
            match castOut sub payload with
            | .ok v => { st1 with results := st1.results ++ [v] }
            | .error e => { st1 with firstError := some e, done := true }
        | dt2, _ =>
          match castOut dt2 payload with
          | .ok (.arrayW xs) => { st1 with results := st1.results ++ xs }
          | .ok w => { st1 with results := st1.results ++ [w] }
          | .error e => { st1 with firstError := some e, done := true }

/-- Run the continuation chain for at most `fuel` rounds (the chain itself
stops as soon as `done` is set). -/
def discDrive (dtLookup : String → String → Option BacDatatype)
    (env : Nat → DiscReply) : Nat → DiscState → DiscState
  | 0, st => st
  | fuel + 1, st =>
    if st.done then st
    else discDrive dtLookup env fuel (discStep dtLookup env st)

/-- Final state of a `discover` run with the given engine and fuel. -/
def discoverState (dtLookup : String → String → Option BacDatatype)
    (env : Nat → DiscReply) (fuel : Nat) : DiscState :=
  discDrive dtLookup env fuel discInit

/-- The dictionary returned by `discover`. -/
structure DiscResult where
  objectList : List Wire
  errorMsg : Option String

/-- `discover(...)`: drive the chain; if `done` was not raised before the
timeout return the partial list with a timeout error, otherwise return the
accumulated list together with `error_holder[0]` when an error was
recorded (`_json_safe` is the identity on the modelled wire values). -/
def discover (dtLookup : String → String → Option BacDatatype)
    (env : Nat → DiscReply) (fuel : Nat) : DiscResult :=
  let st := discoverState dtLookup env fuel
  if !st.done then ⟨st.results, some "discover timeout"⟩
  else
    match st.firstError with
    | some e => ⟨st.results, some e⟩
    | Option.none => ⟨st.results, Option.none⟩

/-! ## Device discovery (`whois`) -/

/-- The dictionary built by `_MSTPApp.indication` for one I-Am response. -/
structure DeviceRec where
  device_instance : Int
  max_apdu : Int
  segmentation : String
  vendor_id : Int
  source_mac : Option Int
deriving Repr, DecidableEq

/-- Python dict assignment `m[k] = v` on an insertion-ordered association
list: an existing key keeps its position with the value replaced, a new key
is appended. -/
def upsertAssoc {α β : Type} [DecidableEq α]
    (m : List (α × β)) (k : α) (v : β) : List (α × β) :=
  if m.any (fun p => p.1 = k) then
    m.map (fun p => if p.1 = k then (k, v) else p)
  else m ++ [(k, v)]

/-- The collection loop of `whois`: fold the I-Am events delivered during
the drain window into the `seen` dict keyed by `device_instance`, then
return `list(seen.values())`. -/
def whoisCollect (events : List DeviceRec) : List DeviceRec :=
  (events.foldl (fun m d => upsertAssoc m d.device_instance d) []).map Prod.snd

/-! ## Startup configuration (`load_bc_ini`) -/

/-- One ini section: option keys with raw string values. -/
abbrev IniSection := List (String × String)

/-- A parsed ini file: named sections in file order.  `configparser`
rejects duplicate sections, so plain first-match lookup is faithful. -/
abbrev IniFile := List (String × IniSection)

/-- `sec(*names)`: the first of the candidate section names that exists. -/
def secResolve (cp : IniFile) : List String → Option IniSection
  | [] => Option.none
  | n :: rest =>
    match cp.lookup n with
    | some s => some s
    | Option.none => secResolve cp rest

/-- `section.get(k)`: `configparser` lowercases option keys on both store
and query, so the lookup is key-case-insensitive. -/
def secGet (s : IniSection) (k : String) : Option String :=
  (s.find? (fun p => lowerStr p.1 = lowerStr k)).map Prod.snd

/-- The key-alias scan inside `opt`: first alias whose value exists. -/
def firstKey (s : IniSection) : List String → Option String
  | [] => Option.none
  | k :: rest =>
    match secGet s k with
    | some v => some v
    | Option.none => firstKey s rest

/-- `opt(section, *keys, default=d)` without a cast. -/
def optStrD (s? : Option IniSection) (keys : List String) (dflt : String) : String :=
  match s? with
  | Option.none => dflt
  | some s => (firstKey s keys).getD dflt

/-- `opt(section, *keys)` without a cast and with default `None`. -/
def optStrOpt (s? : Option IniSection) (keys : List String) : Option String :=
  match s? with
  | Option.none => Option.none
  | some s => firstKey s keys

/-- `opt(section, *keys, default=d, cast=int)`: a present value is passed
through `int`, whose `ValueError` propagates (`.error`). -/
def optIntD (s? : Option IniSection) (keys : List String) (dflt : Int) :
    Except String Int :=
  match s? with
  | Option.none => .ok dflt
  | some s =>
    match firstKey s keys with
    | some v =>
      match pyInt v with
      | some n => .ok n
      | Option.none => .error "ValueError"
    | Option.none => .ok dflt

/-- `opt(section, *keys, cast=int)` with default `None`. -/
def optIntOpt (s? : Option IniSection) (keys : List String) :
    Except String (Option Int) :=
  match s? with
  | Option.none => .ok Option.none
  | some s =>
    match firstKey s keys with
    | some v =>
      match pyInt v with
      | some n => .ok (some n)
      | Option.none => .error "ValueError"
    | Option.none => .ok Option.none

/-- The `mstp` transport dictionary built by `load_bc_ini`. -/
structure MstpCfg where
  address : Int
  interface : String
  baudrate : Int
  maxMasters : Int
  maxInfoFrames : Int
  mstpDir : String
deriving Repr, DecidableEq

/-- The device identity dictionary built by `load_bc_ini`. -/
structure DevCfg where
  objectName : String
  objectIdentifier : Int
  maxApduLengthAccepted : Int
  segmentationSupported : String
  vendorIdentifier : Int
deriving Repr, DecidableEq

/-- `load_bc_ini(path)` after the file has been parsed into `cp`: resolve
the mstp/device sections, build both option dictionaries in source order
(each `int` cast can raise), and raise `KeyError` when the mstp section or
the address/interface options are missing.  `.error` models the raised
exception, which is fatal at startup. -/
def load_bc_ini (cp : IniFile) : Except String (MstpCfg × DevCfg) :=
  let sectMstp := secResolve cp ["mstp", "MSTP", "BACpypes"]
  let sectDevice := secResolve cp ["device", "Device", "BACpypes"]
  match sectMstp with
  | Option.none => .error "KeyError: no mstp section"
  | some _ =>
    match optIntOpt sectMstp ["_address", "address", "mstp_address"] with
    | .error e => .error e
    | .ok address =>
      let iface := optStrOpt sectMstp ["_interface", "interface", "port", "serial_port"]
      match optIntD sectMstp ["_baudrate", "baudrate", "baud"] 38400 with
      | .error e => .error e
      | .ok baudrate =>
        match optIntD sectMstp ["_max_masters", "max_masters", "maxmasters"] 127 with
        | .error e => .error e
        | .ok maxMasters =>
          match optIntD sectMstp ["_maxinfo", "max_info_frames", "maxinfo", "maxinfoframes"] 1 with
          | .error e => .error e
          | .ok maxInfo =>
            let mstpDir := optStrD sectMstp ["_mstp_dir", "mstp_dir", "mstp_directory"] "/tmp"
            match address, iface with
            | some a, some i =>
              let objectName := optStrD sectDevice ["objectName", "object_name"] "MSTP-Client"
              match optIntD sectDevice ["objectIdentifier", "device_id"] 599 with
              | .error e => .error e
              | .ok objId =>
                match optIntD sectDevice ["maxApduLengthAccepted", "max_apdu"] 1024 with
                | .error e => .error e
                | .ok maxApdu =>
                  let seg := optStrD sectDevice ["segmentationSupported", "segmentation"] "noSegmentation"
                  match optIntD sectDevice ["vendorIdentifier", "vendor_id"] 15 with
                  | .error e => .error e
                  | .ok vendorId =>
                    .ok (⟨a, i, baudrate, maxMasters, maxInfo, mstpDir⟩,
                         ⟨objectName, objId, maxApdu, seg, vendorId⟩)
            | _, _ => .error "KeyError: missing address or interface"

/-! ## Object-type schema loading (`load_object_type_definitions`) -/

/-- A JSON document as produced by `json.loads`. -/
inductive Json where
  | null
  | bool (b : Bool)
  | num (q : ℚ)
  | str (s : String)
  | arr (xs : List Json)
  | obj (kvs : List (String × Json))

/-- `d.get(k, default)` on a decoded JSON object; `json.loads` keeps the
last of duplicate keys, hence the reverse lookup. -/
def jsonGet (kvs : List (String × Json)) (k : String) (dflt : Json) : Json :=
  (kvs.reverse.lookup k).getD dflt

/-- Python `str(...)` on a decoded JSON value.  The list/dict renderings
are placeholders: they can never equal a valid access string, which is all
the loader compares them against. -/
def pyStrOfJson : Json → String
  | .null => "None"
  | .bool b => if b then "True" else "False"
  | .num q => ratRepr q
  | .str s => s
  | .arr _ => "<list>"
  | .obj _ => "<dict>"

/-- A normalized object-type definition entry. -/
structure ObjDef where
  access : String
  bacnet_type : String
  datalayer_type : String
  uninitialized_default : Json

/-- The in-memory `_OBJECT_TYPE_DEFS` map (insertion-ordered). -/
abbrev Defs := List (String × ObjDef)

/-- The normalized access string of one schema entry:
`str(v.get("access", "R")).upper().strip()`. -/
def jsonAccessOf (v : List (String × Json)) : String :=
  trimStr (upperStr (pyStrOfJson (jsonGet v "access" (.str "R"))))

/-- Normalize one schema entry exactly as the loader loop does; `.error`
is the `ValueError` raised for an invalid access value. -/
def normEntry (v : List (String × Json)) : Except String ObjDef :=
  let access := jsonAccessOf v
  let bacnetType := trimStr (upperStr (pyStrOfJson (jsonGet v "bacnet_type" (.str "UNKNOWN"))))
  let dlType := trimStr (upperStr (pyStrOfJson (jsonGet v "datalayer_type" (.str "STRING"))))
  let uninit := jsonGet v "uninitialized_default" .null
  if access = "R" ∨ access = "R/W" then
    let uninit2 :=
      match uninit with
      | .str s => if lowerStr s = "none" ∨ lowerStr s = "null" then Json.null else .str s
      | u => u
    .ok ⟨access, bacnetType, dlType, uninit2⟩
  else .error ("Invalid access: " ++ access)

/-- The loader loop over `data.items()`: non-dict entries are skipped, an
invalid access aborts the whole load, valid entries are inserted into the
fresh `norm` dict. -/
def loadEntries : List (String × Json) → Defs → Except String Defs
  | [], norm => .ok norm
  | (k, v) :: rest, norm =>
    match v with
    | .obj kvs =>
      match normEntry kvs with
      | .error e => .error e
      | .ok d => loadEntries rest (upsertAssoc norm k d)
    | _ => loadEntries rest norm

/-- `load_object_type_definitions(json_path)` given the decoded file
contents (`Option.none` = file missing): validate and normalize the whole
input into `norm`; only a fully successful run is allowed to replace the
global map (see `defsAfterLoad`). -/
def load_object_type_definitions (file : Option Json) : Except String Defs :=
  match file with
  | Option.none => .error "FileNotFoundError"
  | some j =>
    match j with
    | .obj kvs => loadEntries kvs []
    | _ => .error "ValueError: type_defs JSON root must be an object"

/-- The state of `_OBJECT_TYPE_DEFS` after a load attempt: the source
clears and repopulates the map only after the loop has validated every
entry, so a raised exception leaves the previous definitions in place. -/
def defsAfterLoad (file : Option Json) (old : Defs) : Defs :=
  match load_object_type_definitions file with
  | .ok new => new
  | .error _ => old

/-! ## Helper definitions for the theorems -/

/-- The bacpypes `BinaryPV` enumeration as seen by the write-value parser:
an `Enumerated` subclass with labels `inactive`/`active`. -/
def binaryPVType : BacDatatype :=
  .atomic (.enumerated ["inactive", "active"])

/-- A schema fragment mapping `binaryOutput` to semantic type `BOOLEAN`. -/
def binarySchema : String → Option String :=
  fun t => if t = "binaryOutput" then some "BOOLEAN" else Option.none

/-- Schema fragment used by the spec's worked normalization examples. -/
def sampleSchema : String → Option String :=
  fun t =>
    if t = "analogInput" then some "REAL"
    else if t = "binaryInput" then some "BOOLEAN"
    else if t = "multistateValue" then some "UNSIGNED"
    else Option.none

/-- The mstp section `load_bc_ini` resolves. -/
def mstpSection (cp : IniFile) : Option IniSection :=
  secResolve cp ["mstp", "MSTP", "BACpypes"]

/-- Whether some alias of the `address` option exists in the resolved mstp
section. -/
def addressPresent (cp : IniFile) : Bool :=
  match mstpSection cp with
  | some s => (firstKey s ["_address", "address", "mstp_address"]).isSome
  | Option.none => false

/-- Whether some alias of the `interface` option exists in the resolved
mstp section. -/
def interfacePresent (cp : IniFile) : Bool :=
  match mstpSection cp with
  | some s => (firstKey s ["_interface", "interface", "port", "serial_port"]).isSome
  | Option.none => false

/-- Whether a JSON value is an object. -/
def jsonIsObj : Json → Bool
  | .obj _ => true
  | _ => false

/-! ## C1 -/

/-- C1 counterexample.  The claim says an array write with explicit index 0
encodes the value as an unsigned count; in the code the index-0 branch of
`write_property` runs `Integer(value)` — the signed constructor — on the
raw string, which raises `TypeError`, so nothing is encoded at all (and in
particular no unsigned count): shown here for the `objectList` array type
and value `"3"`. -/
theorem c1_counterexample :
    parseWriteValue (.arrayOf (.atomic .objectId)) "3" (some 0) = .error "TypeError" ∧
    parseWriteValue (.arrayOf (.atomic .objectId)) "3" (some 0) ≠
      .ok (.unsignedV 3) := by
  constructor
  · rfl
  · intro h
    rw [show parseWriteValue (.arrayOf (.atomic .objectId)) "3" (some 0) =
          Except.error "TypeError" from rfl] at h
    exact Except.noConfusion h

/-- C1 (amended): for an array-typed property with an explicit index, a
non-`"null"` value at index 0 is passed to the signed `Integer`
constructor, which rejects the string argument, so the write yields a cast
error; a non-`"null"` value at any other index is encoded with the array's
element type's constructor. -/
theorem c1_theorem :
    (∀ sub value, value ≠ "null" →
        parseWriteValue (.arrayOf sub) value (some 0) =
          atomicCtor .integer (.str value) ∧
        atomicCtor .integer (.str value) = .error "TypeError") ∧
    (∀ t value i, value ≠ "null" → i ≠ 0 →
        parseWriteValue (.arrayOf (.atomic t)) value (some i) =
          atomicCtor t (.str value)) := by
  constructor
  · intro sub value h
    exact ⟨by simp [parseWriteValue, h], rfl⟩
  · intro t value i h hi
    simp [parseWriteValue, h, hi]

/-- C1 witness: the amended statement evaluated at index 0 with value `"7"`
on an array of `Unsigned`, and at index 2 with a `CharacterString`
element. -/
theorem c1_witness :
    parseWriteValue (.arrayOf (.atomic .unsigned)) "7" (some 0) = .error "TypeError" ∧
    parseWriteValue (.arrayOf (.atomic .charString)) "xyz" (some 2) =
      .ok (.charV "xyz") := by
  constructor
  · have h := c1_theorem.1 (.atomic .unsigned) "7" (by decide)
    rw [h.1]; exact h.2
  · have h := c1_theorem.2 .charString "xyz" 2 (by decide) (by decide)
    rw [h]; rfl

/-! ## C2 -/

/-- C2: every value-parse/cast failure in `write_property` produces a
`value cast error` result with no request dispatched to the engine (and,
the embedding being total, no exception escapes); an unknown tag code
(`"z:1"`) and an unparsable tagged payload (`"u:abc"`) are such failures,
while `"u:7"` against an ambiguous (`AnyAtomic`) property encodes the
unsigned value 7. -/
theorem c2_theorem :
    (∀ dtLookup objType prop value index priority engine dt e,
        dtLookup objType prop = some dt →
        parseWriteValue dt value index = .error e →
        write_property dtLookup objType prop value index priority engine =
          ⟨.error ("value cast error: " ++ e), false⟩) ∧
    parseWriteValue .anyAtomic "u:abc" Option.none = .error "ValueError" ∧
    parseWriteValue .anyAtomic "z:1" Option.none = .error "KeyError" ∧
    parseWriteValue .anyAtomic "u:7" Option.none = .ok (.unsignedV 7) := by
  refine ⟨?_, rfl, rfl, rfl⟩
  intro dtLookup objType prop value index priority engine dt e h1 h2
  simp [write_property, h1, h2]

/-- C2 witness: the cast-error conclusion at the concrete unparsable input
`"u:abc"` with a simple-ack-ready engine. -/
theorem c2_witness :
    write_property (fun _ _ => some .anyAtomic) "analogValue" "presentValue"
      "u:abc" Option.none Option.none .simpleAck =
      ⟨.error "value cast error: ValueError", false⟩ := by
  exact c2_theorem.1 (fun _ _ => some .anyAtomic) "analogValue" "presentValue"
    "u:abc" Option.none Option.none .simpleAck .anyAtomic "ValueError" rfl rfl

/-! ## C5 -/

/-- C5: when the schema resolves no datatype for the object/property pair,
`read_property` returns the invalid-property error result, dispatches
nothing to the engine, and (having dispatched nothing) never blocks on
`iocb.wait()`. -/
theorem c5_theorem :
    ∀ dtLookup addr objType objInst prop index engine,
      dtLookup objType prop = Option.none →
      read_property dtLookup addr objType objInst prop index engine =
        ⟨.ok (.error ("invalid property " ++ prop ++ " for object type " ++ objType)),
         false⟩ := by
  intro dtLookup addr objType objInst prop index engine h
  simp [read_property, h]

/-- C5 witness: the unknown-property read at a concrete empty schema. -/
theorem c5_witness :
    read_property (fun _ _ => Option.none) 12 "analogValue" 1 "foo"
      Option.none .notAck =
      ⟨.ok (.error "invalid property foo for object type analogValue"), false⟩ :=
  c5_theorem (fun _ _ => Option.none) 12 "analogValue" 1 "foo" Option.none
    .notAck rfl

/-! ## C8 -/

/-- C8: with `binaryOutput` mapped to `BOOLEAN`, `encodeForWrite` turns
`true` into `"active"`, the write-value parser accepts `"active"` for the
`BinaryPV` enumeration, and the encoded literal denotes the same semantic
boolean (`true`) as `normalizePresentValue("binaryOutput", "active")`. -/
theorem c8_theorem :
    encode_present_value_for_write "binaryOutput" (.bool true) = .str "active" ∧
    parseWriteValue binaryPVType "active" Option.none = .ok (.enumV "active") ∧
    parse_present_value binarySchema "binaryOutput" (.str "active") =
      .ok (.bool true) ∧
    toBoolish (.str "active") = true := by
  exact ⟨rfl, rfl, rfl, rfl⟩

/-! ## C7 -/

/-- C7: `parse_present_value` dispatches on the schema semantic type.
`BOOLEAN` returns `_to_boolish`, which maps the word-like spellings
case-insensitively (`active`/`inactive`, `on`/`off`, `1`/`0`,
`enabled`/`disabled`, `set`/`clear`/`reset`), falls back to numeric
truthiness (ints, floats and numeric strings) and then to
non-empty-string truthiness; `REAL` returns the float value (tolerating
numeric strings, `"23.5" ↦ 47/2 = 23.5`); `INTEGER`/`UNSIGNED`/
`ENUMERATED` return an integer (`"3" ↦ 3`, floats rounded, `7/2 ↦ 4`);
any other semantic type stringifies, with `None` becoming `""`. -/
theorem c7_theorem :
    (∀ defsBT objType raw, btypeOf defsBT objType = "BOOLEAN" →
        parse_present_value defsBT objType raw = .ok (.bool (toBoolish raw))) ∧
    (toBoolish (.str "active") = true ∧ toBoolish (.str "inactive") = false ∧
     toBoolish (.str "on") = true ∧ toBoolish (.str "off") = false ∧
     toBoolish (.str "1") = true ∧ toBoolish (.str "0") = false ∧
     toBoolish (.str "enabled") = true ∧ toBoolish (.str "disabled") = false ∧
     toBoolish (.str "set") = true ∧ toBoolish (.str "clear") = false ∧
     toBoolish (.str "reset") = false ∧ toBoolish (.str "Active") = true ∧
     toBoolish (.str "OFF") = false ∧ toBoolish (.str " ENABLED ") = true) ∧
    (∀ n : Int, toBoolish (.int n) = decide (n ≠ 0)) ∧
    (∀ q : ℚ, toBoolish (.float q) = decide (q ≠ 0)) ∧
    (toBoolish (.str "7") = true ∧ toBoolish (.str "-2") = true ∧
     toBoolish (.str "xyz") = true ∧ toBoolish (.str "") = false) ∧
    (∀ defsBT objType, btypeOf defsBT objType = "REAL" →
        (∀ q, parse_present_value defsBT objType (.float q) = .ok (.float q)) ∧
        parse_present_value defsBT objType (.str "23.5") =
          .ok (.float (mkRat 47 2))) ∧
    (mkRat 47 2 : ℚ) = 23.5 ∧
    (∀ defsBT objType,
        (btypeOf defsBT objType = "INTEGER" ∨ btypeOf defsBT objType = "UNSIGNED" ∨
         btypeOf defsBT objType = "ENUMERATED") →
        parse_present_value defsBT objType (.str "3") = .ok (.int 3) ∧
        (∀ q, parse_present_value defsBT objType (.float q) =
            .ok (.int (roundHalfEven q))) ∧
        parse_present_value defsBT objType (.float (mkRat 7 2)) = .ok (.int 4)) ∧
    (∀ defsBT objType raw,
        btypeOf defsBT objType ≠ "BOOLEAN" → btypeOf defsBT objType ≠ "REAL" →
        btypeOf defsBT objType ≠ "INTEGER" → btypeOf defsBT objType ≠ "UNSIGNED" →
        btypeOf defsBT objType ≠ "ENUMERATED" →
        parse_present_value defsBT objType raw = .ok (.str (toStr raw))) ∧
    toStr .none = "" ∧ (∀ s, toStr (.str s) = s) ∧
    parse_present_value sampleSchema "analogInput" (.str "23.5") =
      .ok (.float (mkRat 47 2)) ∧
    parse_present_value sampleSchema "binaryInput" (.str "inactive") =
      .ok (.bool false) ∧
    parse_present_value sampleSchema "multistateValue" (.str "3") = .ok (.int 3) := by
  refine ⟨?_, ?_, ?_, ?_, ?_, ?_, ?_, ?_, ?_, rfl, ?_, rfl, rfl, rfl⟩
  · intro defsBT objType raw h
    simp [parse_present_value, h]
  · exact ⟨rfl, rfl, rfl, rfl, rfl, rfl, rfl, rfl, rfl, rfl, rfl, rfl, rfl, rfl⟩
  · intro n; rfl
  · intro q; rfl
  · exact ⟨rfl, rfl, rfl, rfl⟩
  · intro defsBT objType h
    refine ⟨fun q => ?_, ?_⟩
    · simp [parse_present_value, h]; rfl
    · simp [parse_present_value, h]; rfl
  · norm_num [Rat.mkRat_eq_div]
  · intro defsBT objType h
    rcases h with h | h | h <;>
      exact ⟨by simp [parse_present_value, h]; rfl,
             fun q => by simp [parse_present_value, h]; rfl,
             by simp [parse_present_value, h]; rfl⟩
  · intro defsBT objType raw hB hR hI hU hE
    simp only [parse_present_value]
    rw [if_neg hB, if_neg hR, if_neg (by simp [hI, hU, hE])]
  · intro s; rfl

/-- C7 witness: each hypothesis-bearing branch of the dispatch theorem
applied at a concrete schema and value. -/
theorem c7_witness :
    parse_present_value sampleSchema "binaryInput" (.str "off") = .ok (.bool false) ∧
    parse_present_value sampleSchema "analogInput" (.float (mkRat 1 4)) =
      .ok (.float (mkRat 1 4)) ∧
    parse_present_value sampleSchema "multistateValue" (.float (mkRat 7 2)) =
      .ok (.int 4) ∧
    parse_present_value sampleSchema "unknownThing" .none = .ok (.str "") := by
  obtain ⟨hbool, _, _, _, _, hreal, _, hint, hother, _⟩ := c7_theorem
  refine ⟨?_, ?_, ?_, ?_⟩
  · rw [hbool sampleSchema "binaryInput" (.str "off") rfl]
    rfl
  · exact (hreal sampleSchema "analogInput" rfl).1 (mkRat 1 4)
  · exact (hint sampleSchema "multistateValue" (Or.inr (Or.inl rfl))).2.2
  · exact hother sampleSchema "unknownThing" .none (by decide) (by decide)
      (by decide) (by decide) (by decide)

/-! ## C9 -/

/-- C9 counterexample.  The claim lists the default segmentation mode as
the string `"no segmentation"`, but the loader's default literal is
`"noSegmentation"`: a config with only `address` and `interface` set
yields that spelling, so the claimed default record is not the one
produced. -/
theorem c9_counterexample :
    load_bc_ini [("mstp", [("address", "5"), ("interface", "ttyS0")])] =
      .ok (⟨5, "ttyS0", 38400, 127, 1, "/tmp"⟩,
           ⟨"MSTP-Client", 599, 1024, "noSegmentation", 15⟩) ∧
    ("noSegmentation" : String) ≠ "no segmentation" := by
  exact ⟨rfl, by decide⟩

/-- C9 (amended): loading fails with a raised error for every config whose
mstp section is missing or lacks every alias of `address` or of
`interface`; a config carrying exactly `address` and `interface` gets the
documented defaults — baudrate 38400, max-masters 127, max-info-frames 1,
object name "MSTP-Client", device instance 599, max APDU length 1024,
segmentation mode `"noSegmentation"` (not `"no segmentation"`), vendor
id 15. -/
theorem c9_theorem :
    (∀ cp, (addressPresent cp = false ∨ interfacePresent cp = false) →
        ∀ r, load_bc_ini cp ≠ .ok r) ∧
    (∀ a i n, pyInt a = some n →
        load_bc_ini [("mstp", [("address", a), ("interface", i)])] =
          .ok (⟨n, i, 38400, 127, 1, "/tmp"⟩,
               ⟨"MSTP-Client", 599, 1024, "noSegmentation", 15⟩)) := by
  constructor
  · intro cp h r hok
    unfold load_bc_ini at hok
    cases hsec : secResolve cp ["mstp", "MSTP", "BACpypes"] with
    | none => rw [hsec] at hok; exact Except.noConfusion hok
    | some s =>
      rw [hsec] at hok
      simp only [addressPresent, interfacePresent, mstpSection, hsec] at h
      cases haddr : firstKey s ["_address", "address", "mstp_address"] with
      | some v =>
        cases hif : firstKey s ["_interface", "interface", "port", "serial_port"] with
        | some w => rw [haddr] at h; rw [hif] at h; simp at h
        | none =>
          simp only [optIntOpt, optStrOpt, haddr, hif] at hok
          repeat' split at hok
          all_goals exact Except.noConfusion hok
      | none =>
        simp only [optIntOpt, haddr] at hok
        repeat' split at hok
        all_goals exact Except.noConfusion hok
  · intro a i n hpy
    have hsec : secResolve [("mstp", [("address", a), ("interface", i)])]
        ["mstp", "MSTP", "BACpypes"] = some [("address", a), ("interface", i)] := rfl
    have key : optIntOpt (some [("address", a), ("interface", i)])
        ["_address", "address", "mstp_address"] =
        (match pyInt a with
         | some m => .ok (some m)
         | Option.none => .error "ValueError") := rfl
    unfold load_bc_ini
    simp only [hsec, key, hpy]
    rfl

/-- C9 witness: the missing-interface fatality and the all-defaults load at
concrete configs. -/
theorem c9_witness :
    addressPresent [("mstp", [("interface", "x")])] = false ∧
    load_bc_ini [("mstp", [("interface", "x")])] ≠
      .ok (⟨0, "", 0, 0, 0, ""⟩, ⟨"", 0, 0, "", 0⟩) ∧
    pyInt "5" = some 5 ∧
    load_bc_ini [("mstp", [("address", "5"), ("interface", "t")])] =
      .ok (⟨5, "t", 38400, 127, 1, "/tmp"⟩,
           ⟨"MSTP-Client", 599, 1024, "noSegmentation", 15⟩) := by
  refine ⟨rfl, ?_, rfl, ?_⟩
  · exact c9_theorem.1 [("mstp", [("interface", "x")])] (Or.inl rfl)
      (⟨0, "", 0, 0, 0, ""⟩, ⟨"", 0, 0, "", 0⟩)
  · exact c9_theorem.2 "5" "t" 5 rfl

/-! ## C10 -/

/-- An entry with an invalid normalized access value makes `normEntry`
raise. -/
lemma normEntry_invalid (v : List (String × Json))
    (h : ¬(jsonAccessOf v = "R" ∨ jsonAccessOf v = "R/W")) :
    normEntry v = .error ("Invalid access: " ++ jsonAccessOf v) := by
  unfold normEntry
  rw [if_neg h]

/-- An entry with a valid normalized access value normalizes successfully. -/
lemma normEntry_valid (v : List (String × Json))
    (h : jsonAccessOf v = "R" ∨ jsonAccessOf v = "R/W") :
    ∃ d, normEntry v = .ok d := by
  unfold normEntry
  rw [if_pos h]
  exact ⟨_, rfl⟩

/-- The loader loop fails whenever some object entry carries an invalid
access value. -/
lemma loadEntries_invalid :
    ∀ (kvs : List (String × Json)) (acc : Defs) (k : String) (v : List (String × Json)),
      (k, Json.obj v) ∈ kvs → ¬(jsonAccessOf v = "R" ∨ jsonAccessOf v = "R/W") →
      (loadEntries kvs acc).isOk = false := by
  intro kvs
  induction kvs with
  | nil => intro acc k v hmem _; cases hmem
  | cons hd rest ih =>
    intro acc k v hmem hbad
    obtain ⟨k0, v0⟩ := hd
    cases v0 with
    | obj kvs0 =>
      cases hne : normEntry kvs0 with
      | error e => simp [loadEntries, hne, Except.isOk, Except.toBool]
      | ok d =>
        rcases List.mem_cons.mp hmem with hhead | htail
        · have hv : Json.obj v = Json.obj kvs0 := congrArg Prod.snd hhead
          have hv2 : kvs0 = v := (Json.obj.inj hv).symm
          rw [hv2] at hne
          rw [normEntry_invalid v hbad] at hne
          exact Except.noConfusion hne
        · simp only [loadEntries, hne]
          exact ih (upsertAssoc acc k0 d) k v htail hbad
    | null =>
      rcases List.mem_cons.mp hmem with hhead | htail
      · exact absurd (congrArg Prod.snd hhead).symm (by simp)
      · simp only [loadEntries]; exact ih acc k v htail hbad
    | bool b =>
      rcases List.mem_cons.mp hmem with hhead | htail
      · exact absurd (congrArg Prod.snd hhead).symm (by simp)
      · simp only [loadEntries]; exact ih acc k v htail hbad
    | num q =>
      rcases List.mem_cons.mp hmem with hhead | htail
      · exact absurd (congrArg Prod.snd hhead).symm (by simp)
      · simp only [loadEntries]; exact ih acc k v htail hbad
    | str s =>
      rcases List.mem_cons.mp hmem with hhead | htail
      · exact absurd (congrArg Prod.snd hhead).symm (by simp)
      · simp only [loadEntries]; exact ih acc k v htail hbad
    | arr xs =>
      rcases List.mem_cons.mp hmem with hhead | htail
      · exact absurd (congrArg Prod.snd hhead).symm (by simp)
      · simp only [loadEntries]; exact ih acc k v htail hbad

/-- The loader loop succeeds when every object entry carries a valid
access value. -/
lemma loadEntries_ok :
    ∀ (kvs : List (String × Json)) (acc : Defs),
      (∀ k v, (k, Json.obj v) ∈ kvs → jsonAccessOf v = "R" ∨ jsonAccessOf v = "R/W") →
      ∃ new, loadEntries kvs acc = .ok new := by
  intro kvs
  induction kvs with
  | nil => intro acc _; exact ⟨acc, rfl⟩
  | cons hd rest ih =>
    intro acc hall
    obtain ⟨k0, v0⟩ := hd
    cases v0 with
    | obj kvs0 =>
      obtain ⟨d, hd2⟩ := normEntry_valid kvs0 (hall k0 kvs0 (List.mem_cons_self _ _))
      simp only [loadEntries, hd2]
      exact ih (upsertAssoc acc k0 d)
        (fun k v hv => hall k v (List.mem_cons_of_mem _ hv))
    | null => exact ih acc (fun k v hv => hall k v (List.mem_cons_of_mem _ hv))
    | bool b => exact ih acc (fun k v hv => hall k v (List.mem_cons_of_mem _ hv))
    | num q => exact ih acc (fun k v hv => hall k v (List.mem_cons_of_mem _ hv))
    | str s => exact ih acc (fun k v hv => hall k v (List.mem_cons_of_mem _ hv))
    | arr xs => exact ih acc (fun k v hv => hall k v (List.mem_cons_of_mem _ hv))

/-- A failed load leaves the in-memory definitions untouched. -/
lemma defsAfterLoad_of_error (file : Option Json) (old : Defs)
    (h : (load_object_type_definitions file).isOk = false) :
    defsAfterLoad file old = old := by
  unfold defsAfterLoad
  cases hf : load_object_type_definitions file with
  | ok new => rw [hf] at h; exact absurd h (by simp [Except.isOk, Except.toBool])
  | error e => rfl

/-- C10: schema loading is validate-then-commit.  A missing file or a
non-object root raises and leaves the previous definitions unchanged; an
object entry with an invalid access value makes the whole load raise,
again leaving the previous definitions unchanged; and when every object
entry passes validation the load succeeds and the map is replaced by the
newly normalized entries (the old map is discarded wholesale). -/
theorem c10_theorem :
    (∀ old, defsAfterLoad Option.none old = old ∧
        load_object_type_definitions Option.none = .error "FileNotFoundError") ∧
    (∀ old j, jsonIsObj j = false →
        defsAfterLoad (some j) old = old ∧
        (load_object_type_definitions (some j)).isOk = false) ∧
    (∀ old kvs k v, (k, Json.obj v) ∈ kvs →
        ¬(jsonAccessOf v = "R" ∨ jsonAccessOf v = "R/W") →
        (load_object_type_definitions (some (.obj kvs))).isOk = false ∧
        defsAfterLoad (some (.obj kvs)) old = old) ∧
    (∀ old kvs,
        (∀ k v, (k, Json.obj v) ∈ kvs →
          jsonAccessOf v = "R" ∨ jsonAccessOf v = "R/W") →
        ∃ new, load_object_type_definitions (some (.obj kvs)) = .ok new ∧
          defsAfterLoad (some (.obj kvs)) old = new) := by
  refine ⟨fun old => ⟨rfl, rfl⟩, ?_, ?_, ?_⟩
  · intro old j hj
    cases j with
    | obj kvs => exact absurd hj (by simp [jsonIsObj])
    | null => exact ⟨rfl, rfl⟩
    | bool b => exact ⟨rfl, rfl⟩
    | num q => exact ⟨rfl, rfl⟩
    | str s => exact ⟨rfl, rfl⟩
    | arr xs => exact ⟨rfl, rfl⟩
  · intro old kvs k v hmem hbad
    have herr : (load_object_type_definitions (some (.obj kvs))).isOk = false := by
      unfold load_object_type_definitions
      exact loadEntries_invalid kvs [] k v hmem hbad
    exact ⟨herr, defsAfterLoad_of_error _ _ herr⟩
  · intro old kvs hall
    obtain ⟨new, hnew⟩ := loadEntries_ok kvs [] hall
    refine ⟨new, ?_, ?_⟩
    · unfold load_object_type_definitions; exact hnew
    · have hload : load_object_type_definitions (some (.obj kvs)) = .ok new := hnew
      unfold defsAfterLoad
      rw [hload]

/-- C10 witness: a non-object root, an invalid-access entry (previous map
preserved), and a fully valid load (map replaced), all at concrete
inputs. -/
theorem c10_witness :
    (load_object_type_definitions (some (.str "nope"))).isOk = false ∧
    defsAfterLoad (some (.obj [("x", .obj [("access", .str "RW")])]))
        [("keep", ⟨"R", "REAL", "FLOAT", .null⟩)] =
      [("keep", ⟨"R", "REAL", "FLOAT", .null⟩)] ∧
    defsAfterLoad (some (.obj [("analogInput", .obj [("access", .str "r/w")])])) [] =
      [("analogInput", ⟨"R/W", "UNKNOWN", "STRING", .null⟩)] := by
  refine ⟨?_, ?_, ?_⟩
  · exact (c10_theorem.2.1 [] (.str "nope") rfl).2
  · exact (c10_theorem.2.2.1 [("keep", ⟨"R", "REAL", "FLOAT", .null⟩)]
      [("x", .obj [("access", .str "RW")])] "x" [("access", .str "RW")]
      (List.mem_singleton.mpr rfl) (by decide)).2
  · obtain ⟨new, h1, h2⟩ := c10_theorem.2.2.2 []
      [("analogInput", .obj [("access", .str "r/w")])]
      (by
        intro k v hv
        rw [List.mem_singleton, Prod.mk.injEq] at hv
        have hv2 : v = [("access", .str "r/w")] := Json.obj.inj hv.2
        rw [hv2]
        exact Or.inr rfl)
    rw [h2]
    have : new = [("analogInput", ⟨"R/W", "UNKNOWN", "STRING", .null⟩)] := by
      rw [show load_object_type_definitions
            (some (.obj [("analogInput", .obj [("access", .str "r/w")])])) =
          .ok [("analogInput", ⟨"R/W", "UNKNOWN", "STRING", .null⟩)] from rfl] at h1
      exact (Except.ok.inj h1).symm
    rw [this]

/-! ## C6 -/

/-- Python dict assignment preserves distinctness of the keys. -/
lemma upsertAssoc_keys {α β : Type} [DecidableEq α] (m : List (α × β)) (k : α) (v : β)
    (h : (m.map Prod.fst).Nodup) : ((upsertAssoc m k v).map Prod.fst).Nodup := by
  unfold upsertAssoc
  split
  · have hg : (m.map (fun p => if p.1 = k then (k, v) else p)).map Prod.fst =
        m.map Prod.fst := by
      rw [List.map_map]
      apply List.map_congr_left
      intro p _
      by_cases hpk : p.1 = k
      · simp [hpk]
      · simp [hpk]
    rw [hg]
    exact h
  · next hany =>
    rw [List.map_append]
    refine List.Nodup.append h (List.nodup_singleton _) ?_
    intro a ha hb
    rw [List.mem_map] at ha
    obtain ⟨p, hp, hpa⟩ := ha
    simp only [List.map_cons, List.map_nil, List.mem_singleton] at hb
    refine hany (List.any_eq_true.mpr ⟨p, hp, ?_⟩)
    simp [hpa, hb]

/-- Every entry of the `seen` dict keeps carrying its own instance as key. -/
lemma upsert_inst_inv (m : List (Int × DeviceRec)) (k : Int) (d : DeviceRec)
    (hd : d.device_instance = k)
    (h : ∀ p ∈ m, p.2.device_instance = p.1) :
    ∀ p ∈ upsertAssoc m k d, p.2.device_instance = p.1 := by
  unfold upsertAssoc
  split
  · intro p hp
    rw [List.mem_map] at hp
    obtain ⟨q, hq, hqe⟩ := hp
    by_cases hqk : q.1 = k
    · rw [← hqe]; simp [hqk, hd]
    · rw [← hqe]; simp [hqk]; exact h q hq
  · intro p hp
    rcases List.mem_append.mp hp with hp | hp
    · exact h p hp
    · rw [List.mem_singleton] at hp; rw [hp]; exact hd

/-- Replacing the entry at key `k` does not disturb other keys. -/
lemma map_replace_filter_ne (rest : List (Int × DeviceRec)) (k k2 : Int) (d : DeviceRec)
    (hk : k2 ≠ k) :
    (rest.map (fun p => if p.1 = k then (k, d) else p)).filter (fun p => p.1 = k2) =
      rest.filter (fun p => p.1 = k2) := by
  induction rest with
  | nil => rfl
  | cons q rest2 ih =>
    by_cases hqk : q.1 = k
    · simp only [List.map_cons, List.filter_cons, if_pos hqk]
      have h1 : ¬(((k, d) : Int × DeviceRec).1 = k2) := fun hh => Ne.symm hk hh
      have h2 : ¬(q.1 = k2) := by rw [hqk]; exact Ne.symm hk
      simp [h1, h2, ih]
    · simp only [List.map_cons, List.filter_cons, if_neg hqk]
      by_cases hq2 : q.1 = k2
      · simp [hq2, ih]
      · simp [hq2, ih]

/-- A list without key `k` still has no entry at `k` after the replace map. -/
lemma map_replace_filter_nil (rest : List (Int × DeviceRec)) (k : Int) (d : DeviceRec)
    (h : ∀ p ∈ rest, ¬(p.1 = k)) :
    (rest.map (fun p => if p.1 = k then (k, d) else p)).filter (fun p => p.1 = k) = [] := by
  induction rest with
  | nil => rfl
  | cons q rest2 ih =>
    have hqk : ¬(q.1 = k) := h q (List.mem_cons_self _ _)
    simp only [List.map_cons, List.filter_cons, if_neg hqk]
    have hdrop : (decide (q.1 = k)) = false := by simp [hqk]
    simp only [hdrop, Bool.false_eq_true, if_false]
    exact ih (fun p hp => h p (List.mem_cons_of_mem _ hp))

/-- Upserting at key `k` does not disturb the entries at another key. -/
lemma upsert_filter_ne (m : List (Int × DeviceRec)) (k k2 : Int) (d : DeviceRec)
    (hk : k2 ≠ k) :
    (upsertAssoc m k d).filter (fun p => p.1 = k2) =
      m.filter (fun p => p.1 = k2) := by
  unfold upsertAssoc
  split
  · exact map_replace_filter_ne m k k2 d hk
  · rw [List.filter_append]
    have hone : ([(k, d)] : List (Int × DeviceRec)).filter (fun p => p.1 = k2) = [] := by
      simp [Ne.symm hk]
    rw [hone, List.append_nil]

/-- With distinct keys, an upsert leaves exactly one entry at its key: the
newly written one. -/
lemma upsert_filter_eq (m : List (Int × DeviceRec)) (k : Int) (d : DeviceRec)
    (h : (m.map Prod.fst).Nodup) :
    (upsertAssoc m k d).filter (fun p => p.1 = k) = [(k, d)] := by
  unfold upsertAssoc
  split
  · next hany =>
    induction m with
    | nil => cases hany
    | cons q rest ih =>
      rw [List.map_cons, List.filter_cons]
      by_cases hqk : q.1 = k
      · simp only [if_pos hqk]
        have hnok : ∀ p ∈ rest, ¬(p.1 = k) := by
          intro p hp hpk
          have hnd : q.1 ∉ rest.map Prod.fst := by
            rw [List.map_cons] at h
            exact (List.nodup_cons.mp h).1
          have hmem : p.1 ∈ rest.map Prod.fst := List.mem_map_of_mem Prod.fst hp
          rw [hpk, ← hqk] at hmem
          exact hnd hmem
        rw [map_replace_filter_nil rest k d hnok]
        simp
      · simp only [if_neg hqk]
        have hdrop : (decide (q.1 = k)) = false := by simp [hqk]
        simp only [hdrop, Bool.false_eq_true, if_false]
        have hany2 : (rest.any fun p => decide (p.1 = k)) = true := by
          rcases List.any_eq_true.mp hany with ⟨p, hp, hpk⟩
          rcases List.mem_cons.mp hp with hph | hpt
          · exact absurd (of_decide_eq_true hpk) (hph ▸ hqk)
          · exact List.any_eq_true.mpr ⟨p, hpt, hpk⟩
        refine ih ?_ hany2
        rw [List.map_cons] at h
        exact (List.nodup_cons.mp h).2
  · next hany =>
    rw [List.filter_append]
    have hm : m.filter (fun p => p.1 = k) = [] := by
      rw [List.filter_eq_nil_iff]
      intro p hp hpk
      exact hany (List.any_eq_true.mpr ⟨p, hp, hpk⟩)
    rw [hm]
    simp

/-- The `whois` fold keeps the dict keys distinct. -/
lemma whois_fold_keys :
    ∀ (events : List DeviceRec) (m : List (Int × DeviceRec)),
      (m.map Prod.fst).Nodup →
      ((events.foldl (fun m2 d => upsertAssoc m2 d.device_instance d) m).map
          Prod.fst).Nodup := by
  intro events
  induction events with
  | nil => intro m hm; exact hm
  | cons d rest ih =>
    intro m hm
    rw [List.foldl_cons]
    exact ih _ (upsertAssoc_keys m d.device_instance d hm)

/-- The `whois` fold keeps each entry keyed by its own device instance. -/
lemma whois_fold_inst :
    ∀ (events : List DeviceRec) (m : List (Int × DeviceRec)),
      (∀ p ∈ m, p.2.device_instance = p.1) →
      ∀ p ∈ events.foldl (fun m2 d => upsertAssoc m2 d.device_instance d) m,
        p.2.device_instance = p.1 := by
  intro events
  induction events with
  | nil => intro m hm; exact hm
  | cons d rest ih =>
    intro m hm
    rw [List.foldl_cons]
    exact ih _ (upsert_inst_inv m d.device_instance d rfl hm)

/-- After folding the collection window into the dict, the entries at key
`k` are exactly the last delivered response with that instance (or the
original entries when the window never mentioned `k`). -/
lemma whois_fold_filter :
    ∀ (events : List DeviceRec) (m : List (Int × DeviceRec)),
      (m.map Prod.fst).Nodup →
      ∀ k, ((events.foldl (fun m2 d => upsertAssoc m2 d.device_instance d) m).filter
              (fun p => p.1 = k)) =
        (match (events.filter (fun d => d.device_instance = k)).getLast? with
         | some d => [(k, d)]
         | Option.none => m.filter (fun p => p.1 = k)) := by
  intro events
  induction events with
  | nil => intro m hm k; rfl
  | cons d rest ih =>
    intro m hm k
    rw [List.foldl_cons,
      ih (upsertAssoc m d.device_instance d)
        (upsertAssoc_keys m d.device_instance d hm) k,
      List.filter_cons]
    by_cases hdk : d.device_instance = k
    · have hkeep : (decide (d.device_instance = k)) = true := decide_eq_true hdk
      rw [hkeep, if_pos rfl]
      cases hrest : (rest.filter (fun d2 => d2.device_instance = k)).getLast? with
      | some d2 =>
        have hne : rest.filter (fun d2 => decide (d2.device_instance = k)) ≠ [] := by
          intro h0
          rw [h0] at hrest
          exact Option.noConfusion hrest
        rw [show (d :: rest.filter (fun d2 => decide (d2.device_instance = k))) =
              [d] ++ rest.filter (fun d2 => decide (d2.device_instance = k)) from rfl,
          List.getLast?_append_of_ne_nil [d] hne, hrest]
      | none =>
        have h0 : rest.filter (fun d2 => decide (d2.device_instance = k)) = [] :=
          List.getLast?_eq_none_iff.mp hrest
        rw [h0]
        rw [show (([d] : List DeviceRec)).getLast? = some d from rfl]
        rw [← hdk]
        exact upsert_filter_eq m d.device_instance d hm
    · have hdrop : (decide (d.device_instance = k)) = false := decide_eq_false hdk
      rw [hdrop]
      simp only [Bool.false_eq_true, if_false]
      cases hrest : (rest.filter (fun d2 => d2.device_instance = k)).getLast? with
      | some d2 => rfl
      | none =>
        exact upsert_filter_ne m d.device_instance k d (fun hh => hdk hh.symm)

/-- C6: one `whois` collection window never returns two records with the
same `deviceInstance`, and the record returned for an instance is exactly
the last response received for that instance during the window (no
response: no record). -/
theorem c6_theorem (events : List DeviceRec) :
    ((whoisCollect events).map (fun d => d.device_instance)).Nodup ∧
    ∀ k, (whoisCollect events).filter (fun d => d.device_instance = k) =
      ((events.filter (fun d => d.device_instance = k)).getLast?).toList := by
  have hkeys := whois_fold_keys events [] (by simp)
  have hinst := whois_fold_inst events [] (by simp)
  constructor
  · unfold whoisCollect
    rw [List.map_map]
    have hcongr : List.map ((fun d => d.device_instance) ∘ Prod.snd)
        (List.foldl (fun m d => upsertAssoc m d.device_instance d) [] events) =
        List.map Prod.fst
          (List.foldl (fun m d => upsertAssoc m d.device_instance d) [] events) :=
      List.map_congr_left (fun p hp => hinst p hp)
    rw [hcongr]
    exact hkeys
  · intro k
    unfold whoisCollect
    rw [List.filter_map]
    rw [List.filter_congr
      (fun p hp => by
        show decide (p.2.device_instance = k) = decide (p.1 = k)
        rw [hinst p hp])]
    rw [whois_fold_filter events [] (by simp) k]
    cases hrest : (events.filter (fun d => d.device_instance = k)).getLast? with
    | some d2 => rfl
    | none => rfl


/-! ## C3 and C4 -/

/-- The datatype lookup actually hit by `discover`: `get_datatype("device",
"objectList")` is the object-list array of object identifiers. -/
def objListLookup : String → String → Option BacDatatype :=
  fun t p =>
    if t = "device" ∧ p = "objectList" then some (.arrayOf (.atomic .objectId))
    else Option.none

/-- The object-identifier element a well-behaved device reports at array
index `i` (described by `f`). -/
def elemWire (f : Nat → String × Nat) (i : Nat) : Wire :=
  .objIdW (f i).1 (f i).2

/-- A well-formed element reply at index `i`. -/
def elemAck (f : Nat → String × Nat) (i : Nat) : DiscReply :=
  .ack "device" "objectList" (some i) (elemWire f i)

/-- The replies that abort the enumeration chain (engine error,
non-acknowledgment, unresolvable datatype) with the message recorded for
each. -/
def replyAborts (dtLookup : String → String → Option BacDatatype)
    (r : DiscReply) (msg : String) : Prop :=
  r = .ioError msg ∨
  (r = .notAck ∧ msg = "not an ack") ∨
  (∃ t p i w, r = .ack t p i w ∧ dtLookup t p = Option.none ∧
    msg = "unknown datatype for objectList")

/-- A finished chain ignores any remaining fuel. -/
lemma discDrive_done (dtLookup : String → String → Option BacDatatype)
    (env : Nat → DiscReply) :
    ∀ fuel st, st.done = true → discDrive dtLookup env fuel st = st := by
  intro fuel
  induction fuel with
  | zero => intro st _; rfl
  | succ f _ =>
    intro st h
    unfold discDrive
    rw [if_pos h]

/-- Unfolding one round of the chain while it is still running. -/
lemma discDrive_succ (dtLookup : String → String → Option BacDatatype)
    (env : Nat → DiscReply) (fl : Nat) (st : DiscState) (h : st.done = false) :
    discDrive dtLookup env (fl + 1) st =
      discDrive dtLookup env fl (discStep dtLookup env st) := by
  simp only [discDrive]
  rw [if_neg (by simp [h])]

/-- Processing the index-0 reply turns the reported count `n` into the
pending queue `[1..n]`. -/
lemma discStep_count (env : Nat → DiscReply) (n : Nat) (st : DiscState)
    (rest : List Nat) (hq : st.queue = 0 :: rest)
    (henv : env 0 = .ack "device" "objectList" (some 0) (.unsignedW n)) :
    discStep objListLookup env st =
      { st with queue := List.range' 1 n, issued := st.issued ++ [0] } := by
  unfold discStep
  rw [hq]
  simp only [henv]
  simp [objListLookup, castOutUnsigned]

/-- Processing a well-formed element reply appends the decoded element and
pops the index. -/
lemma discStep_elem (env : Nat → DiscReply) (f : Nat → String × Nat)
    (st : DiscState) (i : Nat) (rest : List Nat)
    (hq : st.queue = i :: rest) (henv : env i = elemAck f i) (hi : i ≠ 0) :
    discStep objListLookup env st =
      { st with queue := rest, issued := st.issued ++ [i],
                results := st.results ++ [elemWire f i] } := by
  unfold discStep
  rw [hq]
  simp only [henv, elemAck]
  simp [elemWire, objListLookup, castOut, wireMatches, wireMatchesAtomic, hi]

/-- Processing an aborting reply records its message and raises `done`. -/
lemma discStep_abort (env : Nat → DiscReply) (st : DiscState) (k : Nat)
    (rest : List Nat) (msg : String)
    (hq : st.queue = k :: rest) (habort : replyAborts objListLookup (env k) msg) :
    discStep objListLookup env st =
      { st with queue := rest, issued := st.issued ++ [k],
                firstError := some msg, done := true } := by
  unfold discStep
  rw [hq]
  rcases habort with h | ⟨h, hmsg⟩ | ⟨t, p, i, w, h, hdt, hmsg⟩
  · simp only [h]
  · simp only [h, hmsg]
  · simp only [h, hdt, hmsg]

/-- Driving a queue of well-formed element indices to completion: every
element is appended in queue order and the chain then signals `done`. -/
lemma discDrive_good (env : Nat → DiscReply) (f : Nat → String × Nat) :
    ∀ (q : List Nat) (st : DiscState) (fuel : Nat),
      st.done = false →
      (∀ i ∈ q, i ≠ 0 ∧ env i = elemAck f i) →
      st.queue = q →
      q.length + 1 ≤ fuel →
      discDrive objListLookup env fuel st =
        { results := st.results ++ q.map (elemWire f), queue := [],
          firstError := st.firstError, done := true,
          issued := st.issued ++ q } := by
  intro q
  induction q with
  | nil =>
    intro st fuel hdone _ hq hfuel
    cases fuel with
    | zero => omega
    | succ fl =>
      unfold discDrive
      rw [if_neg (by rw [hdone]; exact Bool.false_ne_true)]
      have hstep : discStep objListLookup env st = { st with done := true } := by
        unfold discStep
        rw [hq]
      rw [hstep, discDrive_done]
      · obtain ⟨rs, qu, fe, dn, iss⟩ := st
        simp_all
      · rfl
  | cons i q2 ih =>
    intro st fuel hdone hgood hq hfuel
    cases fuel with
    | zero => omega
    | succ fl =>
      unfold discDrive
      rw [if_neg (by rw [hdone]; exact Bool.false_ne_true)]
      obtain ⟨hi, henv⟩ := hgood i (List.mem_cons_self _ _)
      rw [discStep_elem env f st i q2 hq henv hi]
      rw [ih { results := st.results ++ [elemWire f i], queue := q2,
               firstError := st.firstError, done := st.done,
               issued := st.issued ++ [i] } fl hdone
        (fun j hj => hgood j (List.mem_cons_of_mem _ hj)) rfl
        (by simp at hfuel ⊢; omega)]
      simp

/-- Driving a queue whose head segment is well-formed but whose next reply
aborts: the good prefix is appended, then the chain stops with the abort
message. -/
lemma discDrive_abort (env : Nat → DiscReply) (f : Nat → String × Nat) :
    ∀ (q : List Nat) (st : DiscState) (fuel : Nat) (k : Nat) (rest : List Nat)
      (msg : String),
      st.done = false →
      (∀ i ∈ q, i ≠ 0 ∧ env i = elemAck f i) →
      st.queue = q ++ k :: rest →
      replyAborts objListLookup (env k) msg →
      q.length + 1 ≤ fuel →
      discDrive objListLookup env fuel st =
        { results := st.results ++ q.map (elemWire f), queue := rest,
          firstError := some msg, done := true,
          issued := st.issued ++ q ++ [k] } := by
  intro q
  induction q with
  | nil =>
    intro st fuel k rest msg hdone _ hq habort hfuel
    cases fuel with
    | zero => omega
    | succ fl =>
      unfold discDrive
      rw [if_neg (by rw [hdone]; exact Bool.false_ne_true)]
      rw [discStep_abort env st k rest msg (by simpa using hq) habort]
      rw [discDrive_done _ _ _ _ rfl]
      simp

  | cons i q2 ih =>
    intro st fuel k rest msg hdone hgood hq habort hfuel
    cases fuel with
    | zero => omega
    | succ fl =>
      unfold discDrive
      rw [if_neg (by rw [hdone]; exact Bool.false_ne_true)]
      obtain ⟨hi, henv⟩ := hgood i (List.mem_cons_self _ _)
      rw [discStep_elem env f st i (q2 ++ k :: rest) (by simpa using hq) henv hi]
      rw [ih { results := st.results ++ [elemWire f i], queue := q2 ++ k :: rest,
               firstError := st.firstError, done := st.done,
               issued := st.issued ++ [i] } fl k rest msg hdone
        (fun j hj => hgood j (List.mem_cons_of_mem _ hj))
        rfl habort (by simp at hfuel ⊢; omega)]
      simp

/-- Driving a well-formed queue with insufficient fuel: exactly the first
`t` elements are read, the chain is still running. -/
lemma discDrive_partial (env : Nat → DiscReply) (f : Nat → String × Nat) :
    ∀ (t : Nat) (q : List Nat) (st : DiscState),
      st.done = false →
      (∀ i ∈ q, i ≠ 0 ∧ env i = elemAck f i) →
      st.queue = q →
      t ≤ q.length →
      discDrive objListLookup env t st =
        { results := st.results ++ (q.take t).map (elemWire f),
          queue := q.drop t, firstError := st.firstError, done := false,
          issued := st.issued ++ q.take t } := by
  intro t
  induction t with
  | zero =>
    intro q st hdone _ hq _
    obtain ⟨rs, qu, fe, dn, iss⟩ := st
    simp_all [discDrive]
  | succ t2 ih =>
    intro q st hdone hgood hq hfuel
    cases q with
    | nil => simp at hfuel
    | cons i q2 =>
      unfold discDrive
      rw [if_neg (by rw [hdone]; exact Bool.false_ne_true)]
      obtain ⟨hi, henv⟩ := hgood i (List.mem_cons_self _ _)
      rw [discStep_elem env f st i q2 hq henv hi]
      rw [ih q2 { results := st.results ++ [elemWire f i], queue := q2,
                  firstError := st.firstError, done := st.done,
                  issued := st.issued ++ [i] } hdone
        (fun j hj => hgood j (List.mem_cons_of_mem _ hj)) rfl
        (by simp at hfuel; omega)]
      simp

/-- C3: for a well-behaved device reporting `n` elements, the enumeration
returns exactly the elements of indices `1..n` in ascending index order
with no error; when the reply at some mid-sequence index `k` is an engine
error, a non-acknowledgment, or has an unresolvable datatype, the chain
stops and returns the prefix `1..k-1` together with that first error; and
when the completion signal has not been raised before the timeout (fuel
`t+1` covers only the count read plus `t ≤ n` element reads, fuel `0`
none), the partial prefix is returned together with a timeout error. -/
theorem c3_theorem :
    (∀ env f n fuel,
        env 0 = .ack "device" "objectList" (some 0) (.unsignedW n) →
        (∀ i, 1 ≤ i → i ≤ n → env i = elemAck f i) →
        n + 2 ≤ fuel →
        discover objListLookup env fuel =
          ⟨(List.range' 1 n).map (elemWire f), Option.none⟩) ∧
    (∀ env f n k msg fuel,
        env 0 = .ack "device" "objectList" (some 0) (.unsignedW n) →
        (∀ i, 1 ≤ i → i < k → env i = elemAck f i) →
        replyAborts objListLookup (env k) msg →
        1 ≤ k → k ≤ n → k + 1 ≤ fuel →
        discover objListLookup env fuel =
          ⟨(List.range' 1 (k - 1)).map (elemWire f), some msg⟩) ∧
    (∀ env f n t,
        env 0 = .ack "device" "objectList" (some 0) (.unsignedW n) →
        (∀ i, 1 ≤ i → i ≤ n → env i = elemAck f i) →
        t ≤ n →
        discover objListLookup env (t + 1) =
          ⟨(List.range' 1 t).map (elemWire f), some "discover timeout"⟩) ∧
    (∀ env, discover objListLookup env 0 = ⟨[], some "discover timeout"⟩) := by
  refine ⟨?_, ?_, ?_, fun env => rfl⟩
  · intro env f n fuel henv0 helem hfuel
    cases fuel with
    | zero => omega
    | succ fl =>
      have hstep : discDrive objListLookup env (fl + 1) discInit =
          discDrive objListLookup env fl
            { results := [], queue := List.range' 1 n, firstError := Option.none,
              done := false, issued := [0] } := by
        rw [discDrive_succ objListLookup env fl discInit rfl,
          discStep_count env n discInit [] rfl henv0]
        rfl
      have hgood : ∀ i ∈ List.range' 1 n, i ≠ 0 ∧ env i = elemAck f i := by
        intro i hi
        rw [List.mem_range'_1] at hi
        exact ⟨by omega, helem i hi.1 (by omega)⟩
      have hdrive := discDrive_good env f (List.range' 1 n)
        { results := [], queue := List.range' 1 n, firstError := Option.none,
          done := false, issued := [0] } fl rfl hgood rfl
        (by rw [List.length_range']; omega)
      unfold discover discoverState
      rw [hstep, hdrive]
      simp
  · intro env f n k msg fuel henv0 helem habort hk1 hkn hfuel
    cases fuel with
    | zero => omega
    | succ fl =>
      have hsplit : List.range' 1 n =
          List.range' 1 (k - 1) ++ k :: List.range' (k + 1) (n - k) := by
        have h1 := List.range'_append 1 (k - 1) ((n - k) + 1) 1
        rw [show 1 + 1 * (k - 1) = k by omega,
          show (n - k) + 1 + (k - 1) = n by omega] at h1
        rw [← h1, List.range'_succ]
      have hstep : discDrive objListLookup env (fl + 1) discInit =
          discDrive objListLookup env fl
            { results := [], queue := List.range' 1 n, firstError := Option.none,
              done := false, issued := [0] } := by
        rw [discDrive_succ objListLookup env fl discInit rfl,
          discStep_count env n discInit [] rfl henv0]
        rfl
      have hgood : ∀ i ∈ List.range' 1 (k - 1), i ≠ 0 ∧ env i = elemAck f i := by
        intro i hi
        rw [List.mem_range'_1] at hi
        exact ⟨by omega, helem i hi.1 (by omega)⟩
      have hdrive := discDrive_abort env f (List.range' 1 (k - 1))
        { results := [], queue := List.range' 1 n, firstError := Option.none,
          done := false, issued := [0] } fl k (List.range' (k + 1) (n - k)) msg
        rfl hgood (by rw [hsplit]) habort
        (by rw [List.length_range']; omega)
      unfold discover discoverState
      rw [hstep, hdrive]
      simp
  · intro env f n t henv0 helem htn
    have hstep : discDrive objListLookup env (t + 1) discInit =
        discDrive objListLookup env t
          { results := [], queue := List.range' 1 n, firstError := Option.none,
            done := false, issued := [0] } := by
      rw [discDrive_succ objListLookup env t discInit rfl,
        discStep_count env n discInit [] rfl henv0]
      rfl
    have hgood : ∀ i ∈ List.range' 1 n, i ≠ 0 ∧ env i = elemAck f i := by
      intro i hi
      rw [List.mem_range'_1] at hi
      exact ⟨by omega, helem i hi.1 (by omega)⟩
    have hdrive := discDrive_partial env f t (List.range' 1 n)
      { results := [], queue := List.range' 1 n, firstError := Option.none,
        done := false, issued := [0] } rfl hgood rfl
      (by rw [List.length_range']; omega)
    have htake : (List.range' 1 n).take t = List.range' 1 t := by
      have h2 := List.range'_append 1 t (n - t) 1
      rw [show 1 + 1 * t = 1 + t by omega, show (n - t) + t = n by omega] at h2
      rw [← h2]
      exact List.take_left' (List.length_range' 1 1 t)
    unfold discover discoverState
    rw [hstep, hdrive, htake]
    simp

/-- C3 witness: a two-element device enumerated to completion, an abort at
index 2, and a timeout after one element read. -/
theorem c3_witness :
    discover objListLookup
        (fun i => if i = 0 then .ack "device" "objectList" (some 0) (.unsignedW 2)
                  else elemAck (fun j => ("analogInput", j)) i) 4 =
      ⟨[.objIdW "analogInput" 1, .objIdW "analogInput" 2], Option.none⟩ ∧
    discover objListLookup
        (fun i => if i = 0 then .ack "device" "objectList" (some 0) (.unsignedW 2)
                  else if i = 1 then elemAck (fun j => ("analogInput", j)) i
                  else .ioError "timeout") 4 =
      ⟨[.objIdW "analogInput" 1], some "timeout"⟩ ∧
    discover objListLookup
        (fun i => if i = 0 then .ack "device" "objectList" (some 0) (.unsignedW 2)
                  else elemAck (fun j => ("analogInput", j)) i) 2 =
      ⟨[.objIdW "analogInput" 1], some "discover timeout"⟩ := by
  refine ⟨?_, ?_, ?_⟩
  · rw [c3_theorem.1
      (fun i => if i = 0 then .ack "device" "objectList" (some 0) (.unsignedW 2)
                else elemAck (fun j => ("analogInput", j)) i)
      (fun j => ("analogInput", j)) 2 4 rfl
      (fun i h1 _ => by
        have h0 : ¬(i = 0) := by omega
        simp [h0])
      (by omega)]
    rfl
  · rw [c3_theorem.2.1
      (fun i => if i = 0 then .ack "device" "objectList" (some 0) (.unsignedW 2)
                else if i = 1 then elemAck (fun j => ("analogInput", j)) i
                else .ioError "timeout")
      (fun j => ("analogInput", j)) 2 2 "timeout" 4 rfl
      (fun i h1 h2 => by
        have h0 : ¬(i = 0) := by omega
        have hone : i = 1 := by omega
        simp [h0, hone])
      (Or.inl (by simp))
      (by omega) (by omega) (by omega)]
    rfl
  · rw [show (2 : Nat) = 1 + 1 from rfl]
    rw [c3_theorem.2.2.1
      (fun i => if i = 0 then .ack "device" "objectList" (some 0) (.unsignedW 2)
                else elemAck (fun j => ("analogInput", j)) i)
      (fun j => ("analogInput", j)) 2 1 rfl
      (fun i h1 _ => by
        have h0 : ¬(i = 0) := by omega
        simp [h0])
      (by omega)]
    rfl

/-- C4: a device reporting an object-list element count of 0 yields an
empty object list with no error, and the only request ever issued is the
count read at array index 0 — no per-element read follows. -/
theorem c4_theorem :
    ∀ env fuel,
      env 0 = .ack "device" "objectList" (some 0) (.unsignedW 0) →
      2 ≤ fuel →
      discover objListLookup env fuel = ⟨[], Option.none⟩ ∧
      (discoverState objListLookup env fuel).issued = [0] := by
  intro env fuel henv hfuel
  cases fuel with
  | zero => omega
  | succ fl =>
    have hstep : discDrive objListLookup env (fl + 1) discInit =
        discDrive objListLookup env fl
          { results := [], queue := [], firstError := Option.none,
            done := false, issued := [0] } := by
      rw [discDrive_succ objListLookup env fl discInit rfl,
        discStep_count env 0 discInit [] rfl henv]
      rfl
    have hdrive := discDrive_good env (fun j => ("", j)) []
      { results := [], queue := [], firstError := Option.none,
        done := false, issued := [0] } fl rfl
      (by intro i hi; cases hi) rfl (by simp; omega)
    constructor
    · unfold discover discoverState
      rw [hstep, hdrive]
      simp
    · unfold discoverState
      rw [hstep, hdrive]
      rfl

/-- C4 witness: the zero-count enumeration at a concrete engine and
timeout. -/
theorem c4_witness :
    discover objListLookup
        (fun i => if i = 0 then .ack "device" "objectList" (some 0) (.unsignedW 0)
                  else .notAck) 2 =
      ⟨[], Option.none⟩ ∧
    (discoverState objListLookup
        (fun i => if i = 0 then .ack "device" "objectList" (some 0) (.unsignedW 0)
                  else .notAck) 2).issued = [0] :=
  c4_theorem
    (fun i => if i = 0 then .ack "device" "objectList" (some 0) (.unsignedW 0)
              else .notAck) 2 rfl (by omega)



end MstpServices
